import Mathlib

/-!
# Verification of the option pricing and volatility estimation core

This file is a shallow embedding, over the real numbers, of the two pure
numeric functions of the service:

* `calculate_historical_volatility` — annualized historical volatility of a
  closing-price series (`pct_change`, then sample standard deviation with
  one degree of freedom removed, scaled by `√252`).  Pandas returns `NaN`
  (not an error) from `.std()` when fewer than two returns are available;
  `NaN` is modelled as `Option.none`, an absent numeric result.  The
  empty-history check raises, modelled as `Except.error`.
* `black_scholes` — the Black–Scholes pricer with its degenerate-input
  guard, its option-type check, and the two pricing branches.

The standard normal cumulative distribution function used by the pricer is
supplied by an external numerics library; following the specification it is
modelled exactly, as the integral of the Gaussian kernel `exp (-t² / 2)`
normalized by `√(2π)`.

Theorems below settle the specification claims: the branch formulas,
put–call parity, non-negativity of both theoretical prices, the
degenerate-input policy and its precedence over option-type validation,
and the volatility edge cases.
-/

open MeasureTheory Set Real

noncomputable section

/-- Embedding of `hist['Close'].pct_change().dropna()`: the list of simple
period-over-period returns of a price series, one per adjacent pair. -/
def pct_change (close : List ℝ) : List ℝ :=
  (close.zip close.tail).map fun p => p.2 / p.1 - 1

/-- The sample standard deviation with the unbiased `n - 1` denominator,
as computed by pandas `Series.std()` (default `ddof = 1`) on a series with
at least two observations. -/
def sample_std (xs : List ℝ) : ℝ :=
  Real.sqrt ((xs.map fun x => (x - xs.sum / xs.length) ^ 2).sum / ((xs.length : ℝ) - 1))

/-- Embedding of pandas `Series.std()` with `ddof = 1`: on a series with
fewer than two observations pandas yields `NaN`, modelled as `none`. -/
def pandas_std (xs : List ℝ) : Option ℝ :=
  if 2 ≤ xs.length then some (sample_std xs) else none

/-- Embedding of `calculate_historical_volatility`, applied to the list of
closing prices fetched for the ticker.  An empty history raises
(`Except.error`); otherwise the function returns
`daily_returns.std() * √252`, which is `NaN` (`none`) when fewer than two
returns exist. -/
def calculate_historical_volatility (close : List ℝ) : Except String (Option ℝ) :=
  if close.isEmpty then Except.error "No historical data found"
  else Except.ok ((pandas_std (pct_change close)).map fun sd => sd * Real.sqrt 252)

/-- The simple returns written the way the specification words them:
`r[i] = price[i] / price[i-1] - 1` for `i = 1 .. n-1`, by position. -/
def simple_returns (price : List ℝ) : List ℝ :=
  (List.range (price.length - 1)).map fun i => price.getD (i + 1) 0 / price.getD i 0 - 1

/-- The annualized volatility written the way the specification words it:
the unbiased (`n - 1` denominator) sample standard deviation of the indexed
simple returns, multiplied by the square root of the annualization factor
252. -/
def annualized_volatility_spec (price : List ℝ) : ℝ :=
  let m := price.length - 1
  let ret : ℕ → ℝ := fun i => price.getD (i + 1) 0 / price.getD i 0 - 1
  let mean := (∑ i ∈ Finset.range m, ret i) / m
  Real.sqrt ((∑ i ∈ Finset.range m, (ret i - mean) ^ 2) / ((m : ℝ) - 1)) * Real.sqrt 252

/-- The Gaussian kernel `exp (-t² / 2)` of the standard normal density. -/
def norm_pdf_kernel (t : ℝ) : ℝ := Real.exp (-(1 / 2) * t ^ 2)

/-- The standard normal cumulative distribution function `N(x)`.  The
source calls `scipy.stats.norm.cdf`, an external library routine; per the
specification it is the exact error-function-based standard normal CDF,
modelled here as the normalized Gaussian integral over `(-∞, x]`. -/
def norm_cdf (x : ℝ) : ℝ := (Real.sqrt (2 * π))⁻¹ * ∫ t in Iic x, norm_pdf_kernel t

/-- The `d1` term of `black_scholes`, exactly as in the source:
`(log(S / K) + (r + 0.5 σ²) T) / (σ √T)`. -/
def bs_d1 (S K T r sigma : ℝ) : ℝ :=
  (Real.log (S / K) + (r + 0.5 * sigma ^ 2) * T) / (sigma * Real.sqrt T)

/-- The `d2` term of `black_scholes`, exactly as in the source:
`d1 - σ √T`. -/
def bs_d2 (S K T r sigma : ℝ) : ℝ := bs_d1 S K T r sigma - sigma * Real.sqrt T

/-- The price computed by the `call` branch of `black_scholes`:
`S N(d1) - K exp(-r T) N(d2)`. -/
def bs_call_price (S K T r sigma : ℝ) : ℝ :=
  S * norm_cdf (bs_d1 S K T r sigma) -
    K * Real.exp (-r * T) * norm_cdf (bs_d2 S K T r sigma)

/-- The price computed by the `put` branch of `black_scholes`:
`K exp(-r T) N(-d2) - S N(-d1)`. -/
def bs_put_price (S K T r sigma : ℝ) : ℝ :=
  K * Real.exp (-r * T) * norm_cdf (-bs_d2 S K T r sigma) -
    S * norm_cdf (-bs_d1 S K T r sigma)

/-- Embedding of `black_scholes`.  The degenerate-input guard comes first
and returns the zero pair; then the option-type check raises; then the two
branches return `(price, price - intrinsic)`. -/
def black_scholes (S K T r sigma : ℝ) (option_type : String) : Except String (ℝ × ℝ) :=
  if S ≤ 0 ∨ K ≤ 0 ∨ T ≤ 0 ∨ sigma ≤ 0 then Except.ok (0.0, 0.0)
  else if ¬(option_type = "call" ∨ option_type = "put") then
    Except.error "option_type must be call or put"
  else if option_type = "call" then
    Except.ok (bs_call_price S K T r sigma, bs_call_price S K T r sigma - max (S - K) 0)
  else
    Except.ok (bs_put_price S K T r sigma, bs_put_price S K T r sigma - max (K - S) 0)

end

/-- A strictly positive spot, strike, expiry and volatility falsify the
degenerate-input guard of `black_scholes`. -/
lemma not_degenerate_of_pos {S K T sigma : ℝ} (hS : 0 < S) (hK : 0 < K) (hT : 0 < T)
    (hsig : 0 < sigma) : ¬(S ≤ 0 ∨ K ≤ 0 ∨ T ≤ 0 ∨ sigma ≤ 0) := by
  simp only [not_or, not_le]
  exact ⟨hS, hK, hT, hsig⟩

/-- On non-degenerate inputs the `call` branch of `black_scholes` returns
its price together with the price minus the call intrinsic value. -/
lemma black_scholes_call_eq (S K T r sigma : ℝ)
    (h : ¬(S ≤ 0 ∨ K ≤ 0 ∨ T ≤ 0 ∨ sigma ≤ 0)) :
    black_scholes S K T r sigma "call" =
      Except.ok (bs_call_price S K T r sigma,
        bs_call_price S K T r sigma - max (S - K) 0) := by
  unfold black_scholes
  rw [if_neg h, if_neg (by simp), if_pos rfl]

/-- On non-degenerate inputs the `put` branch of `black_scholes` returns
its price together with the price minus the put intrinsic value. -/
lemma black_scholes_put_eq (S K T r sigma : ℝ)
    (h : ¬(S ≤ 0 ∨ K ≤ 0 ∨ T ≤ 0 ∨ sigma ≤ 0)) :
    black_scholes S K T r sigma "put" =
      Except.ok (bs_put_price S K T r sigma,
        bs_put_price S K T r sigma - max (K - S) 0) := by
  unfold black_scholes
  rw [if_neg h, if_neg (by simp), if_neg (by simp)]

/-- C4: whenever spot, strike, time-to-expiry or volatility is
non-positive, the pricer returns the zero pair `(0.0, 0.0)` — an ordinary
result, not an error — for every option type; the guard is the first test
in the function, ahead of all transcendental computation. -/
theorem bs_degenerate_zero (S K T r sigma : ℝ) (option_type : String)
    (h : S ≤ 0 ∨ K ≤ 0 ∨ T ≤ 0 ∨ sigma ≤ 0) :
    black_scholes S K T r sigma option_type = Except.ok (0.0, 0.0) := by
  unfold black_scholes
  rw [if_pos h]

/-- Witness for C4 at the specification's own example: zero spot, strike
100, one year, 5% rate, 20% volatility, a call. -/
theorem bs_degenerate_zero_witness :
    black_scholes 0 100 1 0.05 0.2 "call" = Except.ok (0.0, 0.0) :=
  bs_degenerate_zero 0 100 1 0.05 0.2 "call" (Or.inl le_rfl)

/-- C10: the degenerate-input guard takes precedence over option-type
validation — a non-positive spot, strike, expiry or volatility yields the
zero pair even for an option type that is neither `call` nor `put`, and no
error is raised. -/
theorem bs_degenerate_overrides_type_check (S K T r sigma : ℝ) (option_type : String)
    (hdeg : S ≤ 0 ∨ K ≤ 0 ∨ T ≤ 0 ∨ sigma ≤ 0)
    (hc : option_type ≠ "call") (hp : option_type ≠ "put") :
    black_scholes S K T r sigma option_type = Except.ok (0.0, 0.0) := by
  unfold black_scholes
  rw [if_pos hdeg]

/-- Witness for C10: zero spot and the invalid option type `bond` still
produce the zero pair rather than an error. -/
theorem bs_degenerate_overrides_type_check_witness :
    black_scholes 0 100 1 0.05 0.2 "bond" = Except.ok (0.0, 0.0) :=
  bs_degenerate_overrides_type_check 0 100 1 0.05 0.2 "bond" (Or.inl le_rfl)
    (by decide) (by decide)

/-- C5: on a well-formed pricing request (positive spot, strike, expiry and
volatility, as the PricingRequest data model requires) whose option type is
neither `call` nor `put`, the pricer raises the invalid-option-type error
instead of returning a result. -/
theorem bs_invalid_option_type (S K T r sigma : ℝ) (option_type : String)
    (hS : 0 < S) (hK : 0 < K) (hT : 0 < T) (hsig : 0 < sigma)
    (hc : option_type ≠ "call") (hp : option_type ≠ "put") :
    black_scholes S K T r sigma option_type =
      Except.error "option_type must be call or put" := by
  unfold black_scholes
  rw [if_neg (not_degenerate_of_pos hS hK hT hsig), if_pos (fun h => h.elim hc hp)]

/-- Witness for C5 at the specification's example option type `bond`. -/
theorem bs_invalid_option_type_witness :
    black_scholes 1 1 1 0.05 1 "bond" =
      Except.error "option_type must be call or put" :=
  bs_invalid_option_type 1 1 1 0.05 1 "bond" one_pos one_pos one_pos one_pos
    (by decide) (by decide)

/-- Counterexample to C6 as stated: on a one-price series (fewer than two
points) and on a two-price series (fewer than two returns) the volatility
function does not fail — it returns pandas' `NaN` result (`none`), an
ordinary return value, instead of raising an insufficient-data error. -/
theorem vol_insufficient_counterexample :
    calculate_historical_volatility [100] = Except.ok none ∧
    calculate_historical_volatility [100, 100] = Except.ok none := by
  constructor <;>
    simp [calculate_historical_volatility, pandas_std, pct_change]

/-- C6 amended: the function fails only on an empty price series; on a
series of one or two prices (fewer than two derived returns) it returns
`NaN` (no numeric estimate) rather than raising. -/
theorem vol_insufficient_amended (close : List ℝ) (h : close.length < 3) :
    calculate_historical_volatility close =
      if close.length = 0 then Except.error "No historical data found"
      else Except.ok none := by
  match close with
  | [] => simp [calculate_historical_volatility]
  | [a] => simp [calculate_historical_volatility, pandas_std, pct_change]
  | [a, b] => simp [calculate_historical_volatility, pandas_std, pct_change]
  | a :: b :: c :: t => simp at h; omega

/-- Witness for the amended C6 on a one-price series. -/
theorem vol_insufficient_amended_witness :
    calculate_historical_volatility [100] =
      if ([(100 : ℝ)].length = 0) then Except.error "No historical data found"
      else Except.ok none :=
  vol_insufficient_amended [100] (by simp)

/-- Counterexample to C8 as stated: a flat series of two identical positive
prices does not produce the exact zero estimate — pandas' `std` of the
single derived return is `NaN` (`none`), so the claim fails at `n = 2`. -/
theorem vol_flat_counterexample :
    calculate_historical_volatility [100, 100] ≠ Except.ok (some 0) := by
  simp [calculate_historical_volatility, pandas_std, pct_change]

/-- The unbiased sample standard deviation of any list of identical values
is zero; in particular a flat return series has zero volatility. -/
lemma sample_std_replicate_zero (m : ℕ) : sample_std (List.replicate m (0 : ℝ)) = 0 := by
  unfold sample_std
  simp [List.sum_replicate, List.map_replicate]

/-- The returns of a flat positive price series are all zero. -/
lemma pct_change_replicate (n : ℕ) (c : ℝ) (hc : c ≠ 0) :
    pct_change (List.replicate n c) = List.replicate (n - 1) 0 := by
  unfold pct_change
  rw [List.tail_replicate, List.zip_replicate, List.map_replicate]
  have hmin : min n (n - 1) = n - 1 := by omega
  rw [hmin, div_self hc]
  norm_num

/-- C8 amended: on a series of `n ≥ 3` identical positive prices the
volatility function returns exactly zero (for `n = 2` it returns `NaN`
instead, see the counterexample). -/
theorem vol_flat_zero (n : ℕ) (c : ℝ) (hn : 3 ≤ n) (hc : 0 < c) :
    calculate_historical_volatility (List.replicate n c) = Except.ok (some 0) := by
  have hne : ¬((List.replicate n c).isEmpty = true) := by
    simp only [List.isEmpty_iff, List.replicate_eq_nil_iff]
    omega
  unfold calculate_historical_volatility
  rw [if_neg hne, pct_change_replicate n c hc.ne']
  unfold pandas_std
  rw [if_pos (by simp [List.length_replicate]; omega)]
  rw [sample_std_replicate_zero]
  simp

/-- Witness for the amended C8 on three identical unit prices. -/
theorem vol_flat_zero_witness :
    calculate_historical_volatility (List.replicate 3 (1 : ℝ)) = Except.ok (some 0) :=
  vol_flat_zero 3 1 (by decide) one_pos

/-- Summing a function mapped over `List.range` is the `Finset.range` sum. -/
lemma list_sum_range (f : ℕ → ℝ) (n : ℕ) :
    ((List.range n).map f).sum = ∑ i ∈ Finset.range n, f i := by
  induction n with
  | zero => simp
  | succ n ih =>
      rw [List.range_succ, List.map_append, List.sum_append, Finset.sum_range_succ, ih]
      simp

/-- The adjacent-pair returns produced by `pct_change` are exactly the
indexed simple returns `price[i+1] / price[i] - 1` of the specification. -/
lemma pct_change_eq_simple_returns (price : List ℝ) :
    pct_change price = simple_returns price := by
  unfold pct_change simple_returns
  apply List.ext_getElem
  · simp only [List.length_map, List.length_zip, List.length_tail, List.length_range]
    omega
  · intro i h1 h2
    have hi : i + 1 < price.length := by
      simp only [List.length_map, List.length_zip, List.length_tail] at h1
      omega
    simp only [List.getElem_map, List.getElem_zip, List.getElem_tail, List.getElem_range,
      List.getD_eq_getElem _ _ hi, List.getD_eq_getElem _ _ (by omega : i < price.length)]

/-- C7: on a series of at least three positive prices the function returns
the unbiased (`n - 1` denominator) sample standard deviation of the `n - 1`
simple returns, annualized by `√252`, exactly as the specification words
it. -/
theorem vol_estimate_formula (price : List ℝ) (hlen : 3 ≤ price.length)
    (_hpos : ∀ p ∈ price, 0 < p) :
    calculate_historical_volatility price =
      Except.ok (some (annualized_volatility_spec price)) := by
  have hne : ¬(price.isEmpty = true) := by
    simp only [List.isEmpty_iff]
    intro h
    rw [h] at hlen
    simp at hlen
  have hlen2 : (pct_change price).length = price.length - 1 := by
    simp only [pct_change, List.length_map, List.length_zip, List.length_tail]
    omega
  unfold calculate_historical_volatility
  rw [if_neg hne]
  unfold pandas_std
  rw [if_pos (by rw [hlen2]; omega)]
  simp only [Option.map_some']
  rw [pct_change_eq_simple_returns]
  unfold simple_returns annualized_volatility_spec sample_std
  simp only [List.map_map, List.length_map, List.length_range, list_sum_range,
    Function.comp_def]

/-- Witness for C7 on the three-price series `[1, 1, 1]`. -/
theorem vol_estimate_formula_witness :
    calculate_historical_volatility [1, 1, 1] =
      Except.ok (some (annualized_volatility_spec [1, 1, 1])) :=
  vol_estimate_formula [1, 1, 1] (by decide) (by simp)

/-- The Gaussian kernel is positive. -/
lemma norm_pdf_kernel_pos (t : ℝ) : 0 < norm_pdf_kernel t := Real.exp_pos _

/-- The Gaussian kernel is even. -/
lemma norm_pdf_kernel_neg (t : ℝ) : norm_pdf_kernel (-t) = norm_pdf_kernel t := by
  unfold norm_pdf_kernel
  rw [neg_sq]

/-- The Gaussian kernel is integrable on the line. -/
lemma integrable_norm_pdf_kernel : Integrable norm_pdf_kernel := by
  have h := integrable_exp_neg_mul_sq (show (0 : ℝ) < 1 / 2 by norm_num)
  exact h

/-- The total Gaussian integral: `∫ exp (-t² / 2) = √(2π)`. -/
lemma integral_norm_pdf_kernel : ∫ t, norm_pdf_kernel t = Real.sqrt (2 * π) := by
  have h := integral_gaussian (1 / 2 : ℝ)
  rw [show π / (1 / 2 : ℝ) = 2 * π by ring] at h
  exact h

/-- The normalization constant `√(2π)` is positive. -/
lemma sqrt_two_pi_pos : 0 < Real.sqrt (2 * π) :=
  Real.sqrt_pos.mpr (by positivity)

/-- Translating the integrand shifts a lower-tail integral. -/
lemma integral_Iic_shift (f : ℝ → ℝ) (a s : ℝ) :
    ∫ u in Iic a, f (u - s) = ∫ u in Iic (a - s), f u := by
  rw [← integral_indicator measurableSet_Iic, ← integral_indicator measurableSet_Iic,
    ← integral_sub_right_eq_self (Set.indicator (Iic (a - s)) f) s]
  congr 1
  funext u
  simp only [Set.indicator_apply, mem_Iic, sub_le_sub_iff_right]

/-- Translating the integrand shifts an upper-tail integral. -/
lemma integral_Ici_shift (f : ℝ → ℝ) (a s : ℝ) :
    ∫ u in Ici a, f (u + s) = ∫ u in Ici (a + s), f u := by
  rw [← integral_indicator measurableSet_Ici, ← integral_indicator measurableSet_Ici,
    ← integral_add_right_eq_self (Set.indicator (Ici (a + s)) f) s]
  congr 1
  funext u
  simp only [Set.indicator_apply, mem_Ici, add_le_add_iff_right]

/-- For an even integrand the lower tail at `-a` is the upper tail at `a`. -/
lemma integral_Iic_reflect (f : ℝ → ℝ) (hf : ∀ t, f (-t) = f t) (a : ℝ) :
    ∫ u in Iic (-a), f u = ∫ u in Ici a, f u := by
  rw [← integral_indicator measurableSet_Iic, ← integral_indicator measurableSet_Ici,
    ← integral_neg_eq_self (Set.indicator (Iic (-a)) f) volume]
  congr 1
  funext u
  simp only [Set.indicator_apply, mem_Iic, mem_Ici, neg_le_neg_iff]
  by_cases h : a ≤ u
  · simp [h, hf]
  · simp [h]

/-- The upper-tail form of `norm_cdf` at a negated argument. -/
lemma norm_cdf_neg_eq (x : ℝ) :
    norm_cdf (-x) = (Real.sqrt (2 * π))⁻¹ * ∫ u in Ici x, norm_pdf_kernel u := by
  unfold norm_cdf
  rw [integral_Iic_reflect norm_pdf_kernel norm_pdf_kernel_neg x]

/-- Complementarity of the standard normal CDF: `N(x) + N(-x) = 1`. -/
lemma norm_cdf_add_neg (x : ℝ) : norm_cdf x + norm_cdf (-x) = 1 := by
  rw [norm_cdf_neg_eq]
  unfold norm_cdf
  rw [integral_Ici_eq_integral_Ioi, ← mul_add]
  have hsplit :
      (∫ t in Iic x, norm_pdf_kernel t) + ∫ t in Ioi x, norm_pdf_kernel t =
        ∫ t, norm_pdf_kernel t := by
    have h := integral_add_compl (measurableSet_Iic (a := x)) integrable_norm_pdf_kernel
    rwa [compl_Iic] at h
  rw [hsplit, integral_norm_pdf_kernel, inv_mul_cancel₀ sqrt_two_pi_pos.ne']

/-- C1: on a valid call request the pricer returns
`(S·N(d1) - K·exp(-rT)·N(d2), price - max(S - K, 0))`, with `d1` and `d2`
exactly the specified distance terms. -/
theorem bs_call_formula (S K T r sigma : ℝ) (hS : 0 < S) (hK : 0 < K) (hT : 0 < T)
    (hsig : 0 < sigma) :
    black_scholes S K T r sigma "call" =
      Except.ok
        (S * norm_cdf (bs_d1 S K T r sigma) -
            K * Real.exp (-r * T) * norm_cdf (bs_d2 S K T r sigma),
          S * norm_cdf (bs_d1 S K T r sigma) -
              K * Real.exp (-r * T) * norm_cdf (bs_d2 S K T r sigma) -
            max (S - K) 0) ∧
    bs_d1 S K T r sigma =
      (Real.log (S / K) + (r + 0.5 * sigma ^ 2) * T) / (sigma * Real.sqrt T) ∧
    bs_d2 S K T r sigma = bs_d1 S K T r sigma - sigma * Real.sqrt T :=
  ⟨black_scholes_call_eq S K T r sigma (not_degenerate_of_pos hS hK hT hsig), rfl, rfl⟩

/-- Witness for C1 at spot, strike, expiry and volatility all one and a 5%
rate. -/
theorem bs_call_formula_witness :
    black_scholes 1 1 1 0.05 1 "call" =
      Except.ok
        (1 * norm_cdf (bs_d1 1 1 1 0.05 1) -
            1 * Real.exp (-0.05 * 1) * norm_cdf (bs_d2 1 1 1 0.05 1),
          1 * norm_cdf (bs_d1 1 1 1 0.05 1) -
              1 * Real.exp (-0.05 * 1) * norm_cdf (bs_d2 1 1 1 0.05 1) -
            max (1 - 1) 0) ∧
    bs_d1 1 1 1 0.05 1 =
      (Real.log (1 / 1) + (0.05 + 0.5 * 1 ^ 2) * 1) / (1 * Real.sqrt 1) ∧
    bs_d2 1 1 1 0.05 1 = bs_d1 1 1 1 0.05 1 - 1 * Real.sqrt 1 :=
  bs_call_formula 1 1 1 0.05 1 one_pos one_pos one_pos one_pos

/-- C2: on a valid put request the pricer returns
`(K·exp(-rT)·N(-d2) - S·N(-d1), price - max(K - S, 0))`, with `d1` and `d2`
as for the call. -/
theorem bs_put_formula (S K T r sigma : ℝ) (hS : 0 < S) (hK : 0 < K) (hT : 0 < T)
    (hsig : 0 < sigma) :
    black_scholes S K T r sigma "put" =
      Except.ok
        (K * Real.exp (-r * T) * norm_cdf (-bs_d2 S K T r sigma) -
            S * norm_cdf (-bs_d1 S K T r sigma),
          K * Real.exp (-r * T) * norm_cdf (-bs_d2 S K T r sigma) -
              S * norm_cdf (-bs_d1 S K T r sigma) -
            max (K - S) 0) ∧
    bs_d1 S K T r sigma =
      (Real.log (S / K) + (r + 0.5 * sigma ^ 2) * T) / (sigma * Real.sqrt T) ∧
    bs_d2 S K T r sigma = bs_d1 S K T r sigma - sigma * Real.sqrt T :=
  ⟨black_scholes_put_eq S K T r sigma (not_degenerate_of_pos hS hK hT hsig), rfl, rfl⟩

/-- Witness for C2 at spot, strike, expiry and volatility all one and a 5%
rate. -/
theorem bs_put_formula_witness :
    black_scholes 1 1 1 0.05 1 "put" =
      Except.ok
        (1 * Real.exp (-0.05 * 1) * norm_cdf (-bs_d2 1 1 1 0.05 1) -
            1 * norm_cdf (-bs_d1 1 1 1 0.05 1),
          1 * Real.exp (-0.05 * 1) * norm_cdf (-bs_d2 1 1 1 0.05 1) -
              1 * norm_cdf (-bs_d1 1 1 1 0.05 1) -
            max (1 - 1) 0) ∧
    bs_d1 1 1 1 0.05 1 =
      (Real.log (1 / 1) + (0.05 + 0.5 * 1 ^ 2) * 1) / (1 * Real.sqrt 1) ∧
    bs_d2 1 1 1 0.05 1 = bs_d1 1 1 1 0.05 1 - 1 * Real.sqrt 1 :=
  bs_put_formula 1 1 1 0.05 1 one_pos one_pos one_pos one_pos

/-- C3: put–call parity.  For any valid request parameters the call price
minus the put price equals `S - K·exp(-rT)`, and those are exactly the
prices the two branches of the pricer return. -/
theorem bs_put_call_parity (S K T r sigma : ℝ) (hS : 0 < S) (hK : 0 < K) (hT : 0 < T)
    (hsig : 0 < sigma) :
    bs_call_price S K T r sigma - bs_put_price S K T r sigma =
      S - K * Real.exp (-r * T) ∧
    black_scholes S K T r sigma "call" =
      Except.ok (bs_call_price S K T r sigma,
        bs_call_price S K T r sigma - max (S - K) 0) ∧
    black_scholes S K T r sigma "put" =
      Except.ok (bs_put_price S K T r sigma,
        bs_put_price S K T r sigma - max (K - S) 0) := by
  refine ⟨?_, black_scholes_call_eq S K T r sigma (not_degenerate_of_pos hS hK hT hsig),
    black_scholes_put_eq S K T r sigma (not_degenerate_of_pos hS hK hT hsig)⟩
  have h1 := norm_cdf_add_neg (bs_d1 S K T r sigma)
  have h2 := norm_cdf_add_neg (bs_d2 S K T r sigma)
  unfold bs_call_price bs_put_price
  linear_combination S * h1 - K * Real.exp (-r * T) * h2

/-- Witness for C3 at spot, strike, expiry and volatility all one and a 5%
rate. -/
theorem bs_put_call_parity_witness :
    bs_call_price 1 1 1 0.05 1 - bs_put_price 1 1 1 0.05 1 =
      1 - 1 * Real.exp (-0.05 * 1) ∧
    black_scholes 1 1 1 0.05 1 "call" =
      Except.ok (bs_call_price 1 1 1 0.05 1,
        bs_call_price 1 1 1 0.05 1 - max (1 - 1) 0) ∧
    black_scholes 1 1 1 0.05 1 "put" =
      Except.ok (bs_put_price 1 1 1 0.05 1,
        bs_put_price 1 1 1 0.05 1 - max (1 - 1) 0) :=
  bs_put_call_parity 1 1 1 0.05 1 one_pos one_pos one_pos one_pos

/-- Clearing the denominator of `d1`: `d1 · σ√T = log S - log K + rT + (σ√T)²/2`. -/
lemma bs_d1_mul (S K T r sigma : ℝ) (hS : 0 < S) (hK : 0 < K) (hT : 0 < T)
    (hsig : 0 < sigma) :
    bs_d1 S K T r sigma * (sigma * Real.sqrt T) =
      Real.log S - Real.log K + r * T + (sigma * Real.sqrt T) ^ 2 / 2 := by
  unfold bs_d1
  rw [div_mul_cancel₀ _ (mul_pos hsig (Real.sqrt_pos.mpr hT)).ne',
    Real.log_div hS.ne' hK.ne', mul_pow, Real.sq_sqrt hT.le]
  ring

/-- Pointwise domination on the lower tail: below `d1` the discounted
strike-weighted shifted kernel is below the spot-weighted kernel. -/
lemma bs_call_pointwise (S K T r sigma : ℝ) (hS : 0 < S) (hK : 0 < K) (hT : 0 < T)
    (hsig : 0 < sigma) {u : ℝ} (hu : u ≤ bs_d1 S K T r sigma) :
    K * Real.exp (-r * T) * norm_pdf_kernel (u - sigma * Real.sqrt T) ≤
      S * norm_pdf_kernel u := by
  have hs : 0 < sigma * Real.sqrt T := mul_pos hsig (Real.sqrt_pos.mpr hT)
  have key : u * (sigma * Real.sqrt T) ≤
      Real.log S - Real.log K + r * T + (sigma * Real.sqrt T) ^ 2 / 2 := by
    have h := mul_le_mul_of_nonneg_right hu hs.le
    rwa [bs_d1_mul S K T r sigma hS hK hT hsig] at h
  unfold norm_pdf_kernel
  rw [← Real.exp_log hK, ← Real.exp_log hS, ← Real.exp_add, ← Real.exp_add, ← Real.exp_add]
  apply Real.exp_le_exp.mpr
  nlinarith [key]

/-- Pointwise domination on the upper tail: above `d2` the spot-weighted
shifted kernel is below the discounted strike-weighted kernel. -/
lemma bs_put_pointwise (S K T r sigma : ℝ) (hS : 0 < S) (hK : 0 < K) (hT : 0 < T)
    (hsig : 0 < sigma) {u : ℝ} (hu : bs_d2 S K T r sigma ≤ u) :
    S * norm_pdf_kernel (u + sigma * Real.sqrt T) ≤
      K * Real.exp (-r * T) * norm_pdf_kernel u := by
  have hs : 0 < sigma * Real.sqrt T := mul_pos hsig (Real.sqrt_pos.mpr hT)
  have h2 : bs_d2 S K T r sigma * (sigma * Real.sqrt T) =
      Real.log S - Real.log K + r * T + (sigma * Real.sqrt T) ^ 2 / 2 -
        (sigma * Real.sqrt T) ^ 2 := by
    unfold bs_d2
    rw [sub_mul, bs_d1_mul S K T r sigma hS hK hT hsig]
    ring
  have key : Real.log S - Real.log K + r * T + (sigma * Real.sqrt T) ^ 2 / 2 -
      (sigma * Real.sqrt T) ^ 2 ≤ u * (sigma * Real.sqrt T) := by
    have h := mul_le_mul_of_nonneg_right hu hs.le
    rwa [h2] at h
  unfold norm_pdf_kernel
  rw [← Real.exp_log hK, ← Real.exp_log hS, ← Real.exp_add, ← Real.exp_add, ← Real.exp_add]
  apply Real.exp_le_exp.mpr
  nlinarith [key]

/-- The discounted strike leg of the call never exceeds the spot leg:
`K·exp(-rT)·N(d2) ≤ S·N(d1)`. -/
lemma bs_call_key (S K T r sigma : ℝ) (hS : 0 < S) (hK : 0 < K) (hT : 0 < T)
    (hsig : 0 < sigma) :
    K * Real.exp (-r * T) * norm_cdf (bs_d2 S K T r sigma) ≤
      S * norm_cdf (bs_d1 S K T r sigma) := by
  have e1 : norm_cdf (bs_d2 S K T r sigma) =
      (Real.sqrt (2 * π))⁻¹ *
        ∫ u in Iic (bs_d1 S K T r sigma),
          norm_pdf_kernel (u - sigma * Real.sqrt T) := by
    unfold norm_cdf
    rw [show bs_d2 S K T r sigma = bs_d1 S K T r sigma - sigma * Real.sqrt T from rfl,
      ← integral_Iic_shift norm_pdf_kernel (bs_d1 S K T r sigma) (sigma * Real.sqrt T)]
  have e2 : norm_cdf (bs_d1 S K T r sigma) =
      (Real.sqrt (2 * π))⁻¹ *
        ∫ u in Iic (bs_d1 S K T r sigma), norm_pdf_kernel u := rfl
  have hI : ∫ u in Iic (bs_d1 S K T r sigma),
        (K * Real.exp (-r * T)) * norm_pdf_kernel (u - sigma * Real.sqrt T) ≤
      ∫ u in Iic (bs_d1 S K T r sigma), S * norm_pdf_kernel u := by
    apply setIntegral_mono_on
    · exact ((integrable_norm_pdf_kernel.comp_sub_right _).const_mul _).integrableOn
    · exact (integrable_norm_pdf_kernel.const_mul _).integrableOn
    · exact measurableSet_Iic
    · intro u hu
      exact bs_call_pointwise S K T r sigma hS hK hT hsig (mem_Iic.mp hu)
  rw [integral_mul_left, integral_mul_left] at hI
  rw [e1, e2]
  calc K * Real.exp (-r * T) *
          ((Real.sqrt (2 * π))⁻¹ *
            ∫ u in Iic (bs_d1 S K T r sigma),
              norm_pdf_kernel (u - sigma * Real.sqrt T)) =
        (Real.sqrt (2 * π))⁻¹ *
          (K * Real.exp (-r * T) *
            ∫ u in Iic (bs_d1 S K T r sigma),
              norm_pdf_kernel (u - sigma * Real.sqrt T)) := by ring
    _ ≤ (Real.sqrt (2 * π))⁻¹ *
          (S * ∫ u in Iic (bs_d1 S K T r sigma), norm_pdf_kernel u) :=
        mul_le_mul_of_nonneg_left hI (inv_nonneg.mpr (Real.sqrt_nonneg _))
    _ = S * ((Real.sqrt (2 * π))⁻¹ *
          ∫ u in Iic (bs_d1 S K T r sigma), norm_pdf_kernel u) := by ring

/-- The spot leg of the put never exceeds the discounted strike leg:
`S·N(-d1) ≤ K·exp(-rT)·N(-d2)`. -/
lemma bs_put_key (S K T r sigma : ℝ) (hS : 0 < S) (hK : 0 < K) (hT : 0 < T)
    (hsig : 0 < sigma) :
    S * norm_cdf (-bs_d1 S K T r sigma) ≤
      K * Real.exp (-r * T) * norm_cdf (-bs_d2 S K T r sigma) := by
  have hd : bs_d2 S K T r sigma + sigma * Real.sqrt T = bs_d1 S K T r sigma := by
    unfold bs_d2
    ring
  rw [norm_cdf_neg_eq, norm_cdf_neg_eq]
  have e1 : ∫ u in Ici (bs_d1 S K T r sigma), norm_pdf_kernel u =
      ∫ u in Ici (bs_d2 S K T r sigma),
        norm_pdf_kernel (u + sigma * Real.sqrt T) := by
    rw [integral_Ici_shift norm_pdf_kernel (bs_d2 S K T r sigma) (sigma * Real.sqrt T), hd]
  rw [e1]
  have hI : ∫ u in Ici (bs_d2 S K T r sigma),
        S * norm_pdf_kernel (u + sigma * Real.sqrt T) ≤
      ∫ u in Ici (bs_d2 S K T r sigma),
        (K * Real.exp (-r * T)) * norm_pdf_kernel u := by
    apply setIntegral_mono_on
    · exact ((integrable_norm_pdf_kernel.comp_add_right _).const_mul _).integrableOn
    · exact (integrable_norm_pdf_kernel.const_mul _).integrableOn
    · exact measurableSet_Ici
    · intro u hu
      exact bs_put_pointwise S K T r sigma hS hK hT hsig (mem_Ici.mp hu)
  rw [integral_mul_left, integral_mul_left] at hI
  calc S * ((Real.sqrt (2 * π))⁻¹ *
          ∫ u in Ici (bs_d2 S K T r sigma),
            norm_pdf_kernel (u + sigma * Real.sqrt T)) =
        (Real.sqrt (2 * π))⁻¹ *
          (S * ∫ u in Ici (bs_d2 S K T r sigma),
            norm_pdf_kernel (u + sigma * Real.sqrt T)) := by ring
    _ ≤ (Real.sqrt (2 * π))⁻¹ *
          (K * Real.exp (-r * T) *
            ∫ u in Ici (bs_d2 S K T r sigma), norm_pdf_kernel u) :=
        mul_le_mul_of_nonneg_left hI (inv_nonneg.mpr (Real.sqrt_nonneg _))
    _ = K * Real.exp (-r * T) *
          ((Real.sqrt (2 * π))⁻¹ *
            ∫ u in Ici (bs_d2 S K T r sigma), norm_pdf_kernel u) := by ring

/-- C9: on every valid request both branch prices are non-negative, with no
clamp anywhere in the formulas, and those are exactly the theoretical
prices the pricer returns for `call` and `put`. -/
theorem bs_price_nonneg (S K T r sigma : ℝ) (hS : 0 < S) (hK : 0 < K) (hT : 0 < T)
    (hsig : 0 < sigma) :
    0 ≤ bs_call_price S K T r sigma ∧ 0 ≤ bs_put_price S K T r sigma ∧
    black_scholes S K T r sigma "call" =
      Except.ok (bs_call_price S K T r sigma,
        bs_call_price S K T r sigma - max (S - K) 0) ∧
    black_scholes S K T r sigma "put" =
      Except.ok (bs_put_price S K T r sigma,
        bs_put_price S K T r sigma - max (K - S) 0) :=
  ⟨sub_nonneg.mpr (bs_call_key S K T r sigma hS hK hT hsig),
    sub_nonneg.mpr (bs_put_key S K T r sigma hS hK hT hsig),
    black_scholes_call_eq S K T r sigma (not_degenerate_of_pos hS hK hT hsig),
    black_scholes_put_eq S K T r sigma (not_degenerate_of_pos hS hK hT hsig)⟩

/-- Witness for C9 at spot, strike, expiry and volatility all one and a 5%
rate. -/
theorem bs_price_nonneg_witness :
    0 ≤ bs_call_price 1 1 1 0.05 1 ∧ 0 ≤ bs_put_price 1 1 1 0.05 1 ∧
    black_scholes 1 1 1 0.05 1 "call" =
      Except.ok (bs_call_price 1 1 1 0.05 1,
        bs_call_price 1 1 1 0.05 1 - max (1 - 1) 0) ∧
    black_scholes 1 1 1 0.05 1 "put" =
      Except.ok (bs_put_price 1 1 1 0.05 1,
        bs_put_price 1 1 1 0.05 1 - max (1 - 1) 0) :=
  bs_price_nonneg 1 1 1 0.05 1 one_pos one_pos one_pos one_pos
